import Mathlib

/-!
Verification of the MoveForge event-tracking poller (`src/commands/track.js`)
and the RPC client network selection (`utils/rpcClient.js`).

The JavaScript source is shallowly embedded: event/transaction records become
structures, the polling loop becomes structural recursion over the fetched
batch, the `try { ... } catch` around a poll cycle becomes an explicit
error-propagating variant of the loop, and console output (logger.success /
logger.warning) becomes an explicit list of output lines.  Chalk color
wrapping is modelled as the identity on strings.  Transaction versions are
modelled as natural numbers, matching the `Number(version)` coercion the
source applies on both sides of its comparison.
-/

namespace MoveForge

/-- JS `typeStr.split('::')` specialised to the separator `"::"`:
leftmost, non-overlapping matches, producing the list of chunks between
occurrences (empty chunks included). Accumulates the current chunk in
reverse. -/
def splitColsAux : List Char → List Char → List (List Char)
  | [], acc => [acc.reverse]
  | ':' :: ':' :: rest, acc => acc.reverse :: splitColsAux rest []
  | c :: rest, acc => splitColsAux rest (c :: acc)

/-- JS `s.split('::')` as a function on Lean strings. -/
def splitCols (s : String) : List String :=
  (splitColsAux s.toList []).map (fun l => String.mk l)

/-- Result of `parseEventType`: the first three `::`-segments of an event
type string (`track.js` lines 13-21). -/
structure ParsedType where
  address : String
  module : String
  name : String
deriving Repr, DecidableEq

/-- `parseEventType` (`track.js` lines 13-21): split the type string on
`::`; `null` if fewer than three parts, otherwise the first three parts. -/
def parseEventType (typeStr : String) : Option ParsedType :=
  let parts := splitCols typeStr
  if parts.length < 3 then none
  else some ⟨parts.getD 0 "", parts.getD 1 "", parts.getD 2 ""⟩

/-- An event record as consumed by the tracker: `evt.type` and `evt.data`
may each be absent (`undefined`), and `data` is a string-keyed mapping,
modelled as an association list. -/
structure EventRecord where
  type : Option String
  data : Option (List (String × String))
deriving Repr, DecidableEq

/-- A transaction record: the ordinal `version` and the embedded ordered
event list (`txn.events` may be absent). -/
structure TransactionRecord where
  version : Nat
  events : Option (List EventRecord)
deriving Repr, DecidableEq

/-- JS field access `data.field` interpolated into a template literal:
an absent field prints as `undefined`. -/
def fld (data : List (String × String)) (k : String) : String :=
  (data.lookup k).getD "undefined"

/-- `JSON.stringify` of a data mapping, as produced in the default branch
of `formatEvent` (`track.js` line 42). -/
def jsonStringifyData (l : List (String × String)) : String :=
  "\x7b" ++ String.intercalate "," (l.map (fun kv => "\"" ++ kv.1 ++ "\":\"" ++ kv.2 ++ "\"")) ++ "\x7d"

/-- `JSON.stringify` of a whole event record (`track.js` line 25);
`undefined` fields are omitted, as JSON.stringify does. -/
def jsonStringifyEvent (e : EventRecord) : String :=
  "\x7b" ++ String.intercalate ","
    ((match e.type with
      | some t => ["\"type\":\"" ++ t ++ "\""]
      | none => []) ++
     (match e.data with
      | some d => ["\"data\":" ++ jsonStringifyData d]
      | none => [])) ++ "\x7d"

/-- `formatEvent` (`track.js` lines 23-44): parse the type (falling back to
`''` when absent); on parse failure return the "Unknown event" dump; else
dispatch on the event name over the five known kinds, with a generic
key:value dump as the default branch.  Chalk wrappers are the identity. -/
def formatEvent (evt : EventRecord) : String :=
  match parseEventType (evt.type.getD "") with
  | none => "Unknown event: " ++ jsonStringifyEvent evt
  | some parsed =>
    let data := evt.data.getD []
    let pre := "[" ++ parsed.name ++ "]"
    if parsed.name = "DrillingStartedEvent" then
      pre ++ " batch " ++ fld data "batch_id" ++ " — drilling started at " ++
        fld data "location" ++ " • qty " ++ fld data "quantity" ++ " " ++ fld data "unit"
    else if parsed.name = "DrillingCompletedEvent" then
      pre ++ " batch " ++ fld data "batch_id" ++ " — drilling completed at " ++
        fld data "location"
    else if parsed.name = "TransportationEvent" then
      pre ++ " batch " ++ fld data "batch_id" ++ " — moved " ++ fld data "method" ++
        " from " ++ fld data "from" ++ " → " ++ fld data "to"
    else if parsed.name = "RefiningEvent" then
      pre ++ " batch " ++ fld data "batch_id" ++ " — refined at " ++
        fld data "refinery" ++ " • output " ++ fld data "output_quantity" ++ " " ++
        fld data "unit"
    else if parsed.name = "DeliveryEvent" then
      pre ++ " batch " ++ fld data "batch_id" ++ " — delivered to " ++
        fld data "destination"
    else
      pre ++ " " ++ jsonStringifyData data

/-- The filter criteria fixed at poller start (`moduleFilter`, `batchId`);
`none` models a falsy (absent) filter. -/
structure FilterCriteria where
  moduleFilter : Option String
  batchId : Option String
deriving Repr, DecidableEq

/-- The per-event guards of the inner loop (`track.js` lines 66-69): skip
if the type does not parse, if the module filter is set and differs from
the parsed module, or if the batch filter is set and differs from
`evt.data?.batch_id`. -/
def survives (filt : FilterCriteria) (evt : EventRecord) : Bool :=
  match parseEventType (evt.type.getD "") with
  | none => false
  | some parsed =>
    (match filt.moduleFilter with
     | some m => parsed.module == m
     | none => true) &&
    (match filt.batchId with
     | some b => (evt.data.getD []).lookup "batch_id" == some b
     | none => true)

/-- The lines emitted (via `logger.success(formatEvent evt)`) for one list
of events, in order. -/
def emitLines (filt : FilterCriteria) (es : List EventRecord) : List String :=
  es.filterMap (fun e => if survives filt e then some (formatEvent e) else none)

/-- The lines one transaction record contributes (`track.js` lines 64-72). -/
def txnEmits (filt : FilterCriteria) (t : TransactionRecord) : List String :=
  emitLines filt (t.events.getD [])

/-- The watermark skip test (`track.js` line 63):
`lastSeenVersion !== null && Number(version) <= Number(lastSeenVersion)`. -/
def skipTxn (wm : Option Nat) (v : Nat) : Bool :=
  match wm with
  | none => false
  | some w => v ≤ w

/-- The body of the `for (const txn of ordered)` loop (`track.js` lines
61-74) over an already-reversed batch: skip a transaction whose version is
at or below the watermark, otherwise emit its surviving events and set the
watermark to its version. Returns the final watermark and the emitted
lines. -/
def cycleAux (filt : FilterCriteria) : Option Nat → List TransactionRecord → Option Nat × List String
  | wm, [] => (wm, [])
  | wm, t :: ts =>
    if skipTxn wm t.version then cycleAux filt wm ts
    else
      let r := cycleAux filt (some t.version) ts
      (r.1, txnEmits filt t ++ r.2)

/-- One successful poll cycle (`track.js` lines 55-74): the fetched batch
is reversed (`txns.slice().reverse()`, server order assumed newest-first)
and then processed transaction by transaction. -/
def pollCycle (filt : FilterCriteria) (wm : Option Nat) (txns : List TransactionRecord) :
    Option Nat × List String :=
  cycleAux filt wm txns.reverse

/-- The outcome of one `rpc.getAccountTransactions` call: a batch, or a
thrown/rejected error with its message. -/
inductive FetchResult where
  | ok (txns : List TransactionRecord)
  | err (msg : String)
deriving Repr, DecidableEq

/-- One observable output line of the loop: an emitted event line
(`logger.success`) or a warning (`logger.warning`). -/
inductive OutLine where
  | emit (s : String)
  | warn (s : String)
  | info (s : String)
deriving Repr, DecidableEq

/-- One iteration of the `while (true)` loop (`track.js` lines 53-80):
a successful fetch runs a poll cycle; a failed fetch leaves the watermark
unchanged and logs `Polling error: <msg>` (line 76). -/
def pollStep (filt : FilterCriteria) (wm : Option Nat) : FetchResult → Option Nat × List OutLine
  | .ok txns =>
    let r := pollCycle filt wm txns
    (r.1, r.2.map OutLine.emit)
  | .err m => (wm, [OutLine.warn ("Polling error: " ++ m)])

/-- A run of the polling loop over a (finite prefix of a) stream of fetch
outcomes, threading the watermark from cycle to cycle. -/
def pollRun (filt : FilterCriteria) : Option Nat → List FetchResult → Option Nat × List OutLine
  | wm, [] => (wm, [])
  | wm, f :: fs =>
    let r := pollStep filt wm f
    let r' := pollRun filt r.1 fs
    (r'.1, r.2 ++ r'.2)

/-- `pollEvents` (`track.js` lines 46-81): the run starts with
`lastSeenVersion = null` (line 47). -/
def pollEvents (filt : FilterCriteria) (fs : List FetchResult) : Option Nat × List OutLine :=
  pollRun filt none fs

/-! ### Exception-instrumented poll cycle

In the source, the whole cycle body sits inside one `try { ... } catch`
(`track.js` lines 54-77): an exception raised while formatting/emitting a
single event propagates out of both `for` loops to the cycle-level catch.
To reason about that control flow, the cycle is re-embedded parameterised
by the formatting/emission step `f`, which may throw (`Except.error`).
Instantiating `f` with the real, total `formatEvent` recovers the pure
cycle (see `cycleAuxE_ok`). -/

/-- The inner event loop (`track.js` lines 65-72) with a throwing
formatter: returns the lines emitted before any error, and the error that
aborted the loop, if any. -/
def emitEventsE (f : EventRecord → Except String String) (filt : FilterCriteria) :
    List EventRecord → List String × Option String
  | [] => ([], none)
  | e :: es =>
    if survives filt e then
      match f e with
      | .ok s =>
        let r := emitEventsE f filt es
        (s :: r.1, r.2)
      | .error m => ([], some m)
    else emitEventsE f filt es

/-- The state left by a poll cycle under the exception model: final
watermark, lines emitted before any error, and the caught error, if any. -/
structure CycleResult where
  wm : Option Nat
  lines : List String
  err : Option String
deriving Repr, DecidableEq

/-- The transaction loop with a throwing formatter: an error inside one
transaction's event loop aborts the whole cycle before that transaction's
watermark update (line 73 is not reached), keeping the lines and watermark
updates made so far. -/
def cycleAuxE (f : EventRecord → Except String String) (filt : FilterCriteria) :
    Option Nat → List TransactionRecord → CycleResult
  | wm, [] => ⟨wm, [], none⟩
  | wm, t :: ts =>
    if skipTxn wm t.version then cycleAuxE f filt wm ts
    else
      let r := emitEventsE f filt (t.events.getD [])
      match r.2 with
      | some m => ⟨wm, r.1, some m⟩
      | none =>
        let r' := cycleAuxE f filt (some t.version) ts
        ⟨r'.wm, r.1 ++ r'.lines, r'.err⟩

/-- One successful-fetch poll cycle under the exception model. -/
def pollCycleE (f : EventRecord → Except String String) (filt : FilterCriteria)
    (wm : Option Nat) (txns : List TransactionRecord) : CycleResult :=
  cycleAuxE f filt wm txns.reverse

/-- One loop iteration under the exception model: a caught cycle error is
logged as `Polling error: <msg>` by the catch block, after the lines
already emitted. -/
def pollStepE (f : EventRecord → Except String String) (filt : FilterCriteria)
    (wm : Option Nat) : FetchResult → Option Nat × List OutLine
  | .ok txns =>
    let r := pollCycleE f filt wm txns
    (r.wm, r.lines.map OutLine.emit ++
      (match r.err with
       | some m => [OutLine.warn ("Polling error: " ++ m)]
       | none => []))
  | .err m => (wm, [OutLine.warn ("Polling error: " ++ m)])

/-- A run of the loop under the exception model. -/
def pollRunE (f : EventRecord → Except String String) (filt : FilterCriteria) :
    Option Nat → List FetchResult → Option Nat × List OutLine
  | wm, [] => (wm, [])
  | wm, g :: fs =>
    let r := pollStepE f filt wm g
    let r' := pollRunE f filt r.1 fs
    (r'.1, r.2 ++ r'.2)

/-! ### Watermark bookkeeping used in the statements -/

/-- One watermark update as performed over a processed batch: an unset
watermark takes the transaction's version; a set one takes the maximum. -/
def wmStep : Option Nat → TransactionRecord → Option Nat
  | none, t => some t.version
  | some w, t => some (max w t.version)

/-- Order on watermarks: `none` (unset) is below everything; set
watermarks compare by value. -/
def wmLe : Option Nat → Option Nat → Prop
  | none, _ => True
  | some _, none => False
  | some w, some w' => w ≤ w'

/-! ### RPC client network selection (`utils/rpcClient.js`) -/

/-- The RPC client state: the registered network profiles (name ↦ base
URL) and the currently selected network name. -/
structure RPCClient where
  networks : List (String × String)
  currentNetwork : String
deriving Repr, DecidableEq

/-- The constructor state of `RPCClient`: three fixed profiles, current
network `testnet`. -/
def initRPC : RPCClient :=
  { networks :=
      [("testnet", "https://aptos.testnet.porto.movementlabs.xyz/v1"),
       ("devnet", "https://aptos.devnet.porto.movementlabs.xyz/v1"),
       ("mainnet", "https://mainnet.movementnetwork.xyz/v1")],
    currentNetwork := "testnet" }

/-- `setNetwork` (`rpcClient.js`): throw
`Unknown network: <name>. Available: <keys joined by ", ">` when the name
is not registered, otherwise select it. -/
def setNetwork (c : RPCClient) (network : String) : Except String RPCClient :=
  match c.networks.lookup network with
  | none =>
    .error ("Unknown network: " ++ network ++ ". Available: " ++
      String.intercalate ", " (c.networks.map Prod.fst))
  | some _ => .ok { c with currentNetwork := network }

/-- The startup of `trackCommand` (`track.js` lines 83-99): a missing
address exits with code 1; otherwise `setNetwork` is attempted inside a
`try`, a failure being downgraded to the warning
`Unknown network '<name>', defaulting to testnet.` with the client state
left as it was. Returns the client the poller will run against and the
startup log lines. -/
def trackStart (c : RPCClient) (address : Option String) (network : Option String) :
    Except Nat (RPCClient × List OutLine) :=
  let net := network.getD "testnet"
  match address with
  | none => .error 1
  | some _ =>
    match setNetwork c net with
    | .ok c' => .ok (c', [OutLine.info ("Network set to: " ++ net)])
    | .error _ => .ok (c, [OutLine.warn ("Unknown network '" ++ net ++ "', defaulting to testnet.")])

/-! ### Concrete fixtures used by counterexamples and witnesses -/

/-- The empty filter criteria (no module filter, no batch filter). -/
def filt0 : FilterCriteria := ⟨none, none⟩

/-- A well-formed event of kind `E1`. -/
def eC4a : EventRecord := ⟨some "0xabc::m::E1", some []⟩

/-- A well-formed event of kind `E2`. -/
def eC4b : EventRecord := ⟨some "0xabc::m::E2", some []⟩

/-- Transaction at version 1 carrying `eC4a`. -/
def tC4a : TransactionRecord := ⟨1, some [eC4a]⟩

/-- Transaction at version 2 carrying `eC4b`. -/
def tC4b : TransactionRecord := ⟨2, some [eC4b]⟩

/-- A formatting/emission step that throws exactly on `eC4a` and otherwise
returns `formatEvent`. -/
def fErr : EventRecord → Except String String := fun e =>
  if e.type = some "0xabc::m::E1" then .error "boom" else .ok (formatEvent e)

/-- An event from a module the `oil_supply_chain` filter rejects. -/
def eOtherModule : EventRecord :=
  ⟨some "0xabc::other_module::SomeEvent", some [("batch_id", "BATCH-2")]⟩

/-- An event of an unrecognized kind. -/
def eWeird : EventRecord := ⟨some "0xabc::m::WeirdEvent", some [("k", "v")]⟩

/-- A `DrillingCompletedEvent` whose data has no `location` field. -/
def eNoLoc : EventRecord :=
  ⟨some "0xabc::m::DrillingCompletedEvent", some [("batch_id", "B1")]⟩

/-- The filter criteria of the spec's end-to-end scenario. -/
def filtOil : FilterCriteria := ⟨some "oil_supply_chain", some "BATCH-1"⟩

/-- Transactions at versions 10, 11 and 12 used by the concrete
scenarios. -/
def t10f : TransactionRecord := ⟨10, some [eC4a]⟩

/-- See `t10f`. -/
def t11f : TransactionRecord := ⟨11, some [eC4b]⟩

/-- See `t10f`. -/
def t12f : TransactionRecord := ⟨12, some [eWeird]⟩

/-! ## Helper lemmas -/

theorem skipTxn_none (v : Nat) : skipTxn none v = false := rfl

theorem skipTxn_some_true {w v : Nat} (h : v ≤ w) : skipTxn (some w) v = true := by
  simp [skipTxn, h]

theorem skipTxn_some_false {w v : Nat} (h : w < v) : skipTxn (some w) v = false := by
  simp [skipTxn]
  omega

/-- Transactions at or below a lower bound `w` of the watermark are
invisible to a cycle: they can be filtered out of the batch without
changing the cycle's result. -/
theorem cycleAux_filter (filt : FilterCriteria) (w : Nat) :
    ∀ (l : List TransactionRecord) (v : Nat), w ≤ v →
      cycleAux filt (some v) l
        = cycleAux filt (some v) (l.filter fun t => decide (w < t.version)) := by
  intro l
  induction l with
  | nil => intro v _; rfl
  | cons t l ih =>
    intro v h
    by_cases hw : w < t.version
    · rw [List.filter_cons_of_pos (by simpa using hw)]
      by_cases hv : t.version ≤ v
      · simp only [cycleAux, skipTxn_some_true hv, if_true]
        exact ih v h
      · simp only [cycleAux, skipTxn_some_false (Nat.not_le.mp hv), Bool.false_eq_true,
          if_false]
        rw [ih t.version (Nat.le_of_lt (Nat.lt_of_le_of_lt h (Nat.not_le.mp hv)))]
    · have ht : t.version ≤ v := Nat.le_trans (Nat.not_lt.mp hw) h
      rw [List.filter_cons_of_neg (by simpa using hw)]
      simp only [cycleAux, skipTxn_some_true ht, if_true]
      exact ih v h

/-- A cycle over a batch whose versions are all at or below the watermark
emits nothing and leaves the watermark unchanged. -/
theorem cycleAux_all_le (filt : FilterCriteria) :
    ∀ (l : List TransactionRecord) (w : Nat), (∀ s ∈ l, s.version ≤ w) →
      cycleAux filt (some w) l = (some w, []) := by
  intro l
  induction l with
  | nil => intro w _; rfl
  | cons t l ih =>
    intro w h
    simp only [cycleAux, skipTxn_some_true (h t (by simp)), if_true]
    exact ih w (fun s hs => h s (by simp [hs]))

/-- Over a strictly ascending batch (the processing order the reversal is
meant to produce), the lines of a cycle are exactly the per-transaction
emissions of the transactions above the starting watermark, in batch
order. -/
theorem cycleAux_snd_of_ascending (filt : FilterCriteria) :
    ∀ (l : List TransactionRecord) (wm : Option Nat),
      l.Pairwise (fun a b => a.version < b.version) →
      (cycleAux filt wm l).2
        = ((l.filter fun t => !skipTxn wm t.version).map (txnEmits filt)).flatten := by
  intro l
  induction l with
  | nil => intro wm _; rfl
  | cons t l ih =>
    intro wm hp
    rcases List.pairwise_cons.mp hp with ⟨h1, h2⟩
    have hfl : (l.filter fun s => !skipTxn (some t.version) s.version) = l :=
      List.filter_eq_self.mpr (fun s hs => by
        simp [skipTxn_some_false (h1 s hs)])
    match wm with
    | none =>
      have hfn : ((t :: l).filter fun s => !skipTxn none s.version) = t :: l :=
        List.filter_eq_self.mpr (fun s _ => rfl)
      rw [hfn]
      simp only [cycleAux, skipTxn_none, Bool.false_eq_true, if_false, List.map_cons,
        List.flatten_cons]
      rw [ih (some t.version) h2, hfl]
    | some w =>
      by_cases ht : t.version ≤ w
      · rw [List.filter_cons_of_neg (by simp [skipTxn_some_true ht])]
        simp only [cycleAux, skipTxn_some_true ht, if_true]
        exact ih (some w) h2
      · rw [List.filter_cons_of_pos (by simp [skipTxn_some_false (Nat.not_le.mp ht)])]
        have hfw : (l.filter fun s => !skipTxn (some w) s.version) = l :=
          List.filter_eq_self.mpr (fun s hs => by
            simp [skipTxn_some_false (Nat.lt_trans (Nat.not_le.mp ht) (h1 s hs))])
        rw [hfw]
        simp only [cycleAux, skipTxn_some_false (Nat.not_le.mp ht), Bool.false_eq_true,
          if_false, List.map_cons, List.flatten_cons]
        rw [ih (some t.version) h2, hfl]

/-- The watermark left by a cycle is the `wmStep`-fold over the processed
batch. -/
theorem cycleAux_fst (filt : FilterCriteria) :
    ∀ (l : List TransactionRecord) (wm : Option Nat),
      (cycleAux filt wm l).1 = l.foldl wmStep wm := by
  intro l
  induction l with
  | nil => intro wm; rfl
  | cons t l ih =>
    intro wm
    match wm with
    | none =>
      simp only [cycleAux, skipTxn_none, Bool.false_eq_true, if_false, List.foldl_cons]
      exact ih (some t.version)
    | some w =>
      by_cases ht : t.version ≤ w
      · have hw : wmStep (some w) t = some w := by simp [wmStep, Nat.max_eq_left ht]
        simp only [cycleAux, skipTxn_some_true ht, if_true, List.foldl_cons, hw]
        exact ih (some w)
      · have hw : wmStep (some w) t = some t.version := by
          simp [wmStep, Nat.max_eq_right (Nat.le_of_lt (Nat.not_le.mp ht))]
        simp only [cycleAux, skipTxn_some_false (Nat.not_le.mp ht), Bool.false_eq_true,
          if_false, List.foldl_cons, hw]
        exact ih (some t.version)

theorem wmStep_comm (a : Option Nat) (t s : TransactionRecord) :
    wmStep (wmStep a t) s = wmStep (wmStep a s) t := by
  cases a with
  | none =>
    show some (max t.version s.version) = some (max s.version t.version)
    rw [Nat.max_comm]
  | some w =>
    show some (max (max w t.version) s.version) = some (max (max w s.version) t.version)
    rw [Nat.max_assoc, Nat.max_comm t.version, ← Nat.max_assoc]

theorem foldl_wmStep_push :
    ∀ (l : List TransactionRecord) (a : Option Nat) (t : TransactionRecord),
      l.foldl wmStep (wmStep a t) = wmStep (l.foldl wmStep a) t := by
  intro l
  induction l with
  | nil => intro a t; rfl
  | cons s l ih =>
    intro a t
    simp only [List.foldl_cons]
    rw [wmStep_comm a t s, ih]

/-- `wmStep` folds are insensitive to batch order: the fold over the
reversed batch equals the fold over the batch. -/
theorem foldl_wmStep_reverse :
    ∀ (l : List TransactionRecord) (a : Option Nat),
      l.reverse.foldl wmStep a = l.foldl wmStep a := by
  intro l
  induction l with
  | nil => intro a; rfl
  | cons t l ih =>
    intro a
    rw [List.reverse_cons, List.foldl_append, List.foldl_cons, List.foldl_nil, ih,
      List.foldl_cons, foldl_wmStep_push]

theorem wmLe_refl : ∀ a, wmLe a a := by
  intro a; cases a <;> simp [wmLe]

theorem wmLe_trans : ∀ {a b c}, wmLe a b → wmLe b c → wmLe a c
  | none, _, _, _, _ => trivial
  | some _, some _, some _, h1, h2 => Nat.le_trans h1 h2
  | some _, some _, none, _, h2 => h2.elim
  | some _, none, _, h1, _ => h1.elim

theorem wmLe_wmStep (a : Option Nat) (t : TransactionRecord) : wmLe a (wmStep a t) := by
  cases a <;> simp [wmLe, wmStep]

theorem wmLe_foldl : ∀ (l : List TransactionRecord) (a : Option Nat),
    wmLe a (l.foldl wmStep a) := by
  intro l
  induction l with
  | nil => intro a; exact wmLe_refl a
  | cons t l ih =>
    intro a
    exact wmLe_trans (wmLe_wmStep a t) (ih (wmStep a t))

theorem wmLe_pollStep (filt : FilterCriteria) (wm : Option Nat) (f : FetchResult) :
    wmLe wm (pollStep filt wm f).1 := by
  cases f with
  | ok txns =>
    show wmLe wm (pollCycle filt wm txns).1
    rw [pollCycle, cycleAux_fst]
    exact wmLe_foldl _ _
  | err m => exact wmLe_refl wm

theorem wmLe_pollRun (filt : FilterCriteria) :
    ∀ (fs : List FetchResult) (wm : Option Nat), wmLe wm (pollRun filt wm fs).1 := by
  intro fs
  induction fs with
  | nil => intro wm; exact wmLe_refl wm
  | cons f fs ih =>
    intro wm
    exact wmLe_trans (wmLe_pollStep filt wm f) (ih (pollStep filt wm f).1)

/-- Deleting a transaction at or below the watermark from anywhere in the
processing order does not change the cycle. -/
theorem cycleAux_erase (filt : FilterCriteria) (s : TransactionRecord) :
    ∀ (l₁ l₂ : List TransactionRecord) (w : Nat), s.version ≤ w →
      cycleAux filt (some w) (l₁ ++ s :: l₂) = cycleAux filt (some w) (l₁ ++ l₂) := by
  intro l₁
  induction l₁ with
  | nil =>
    intro l₂ w h
    simp only [List.nil_append, cycleAux, skipTxn_some_true h, if_true]
  | cons u l₁ ih =>
    intro l₂ w h
    by_cases hu : u.version ≤ w
    · simp only [List.cons_append, cycleAux, skipTxn_some_true hu, if_true]
      exact ih l₂ w h
    · simp only [List.cons_append, cycleAux, skipTxn_some_false (Nat.not_le.mp hu),
        Bool.false_eq_true, if_false, List.append_eq]
      rw [ih l₂ u.version (Nat.le_trans h (Nat.le_of_lt (Nat.not_le.mp hu)))]

/-- With the real (total) formatter, the throwing event loop is the pure
event loop and never errors. -/
theorem emitEventsE_ok (filt : FilterCriteria) :
    ∀ es, emitEventsE (fun e => .ok (formatEvent e)) filt es = (emitLines filt es, none) := by
  intro es
  induction es with
  | nil => rfl
  | cons e es ih =>
    by_cases hs : survives filt e = true
    · simp [emitEventsE, hs, emitLines, List.filterMap_cons, ih]
    · simp [emitEventsE, hs, emitLines, List.filterMap_cons, ih]

/-- With the real (total) formatter, the exception-instrumented cycle is
the pure cycle and never errors. -/
theorem cycleAuxE_ok (filt : FilterCriteria) :
    ∀ (l : List TransactionRecord) (wm : Option Nat),
      cycleAuxE (fun e => .ok (formatEvent e)) filt wm l
        = ⟨(cycleAux filt wm l).1, (cycleAux filt wm l).2, none⟩ := by
  intro l
  induction l with
  | nil => intro wm; rfl
  | cons t l ih =>
    intro wm
    by_cases hs : skipTxn wm t.version = true
    · simp only [cycleAuxE, cycleAux, hs, if_true]
      exact ih wm
    · simp only [cycleAuxE, cycleAux, hs, Bool.false_eq_true, if_false,
        emitEventsE_ok filt, txnEmits, ih (some t.version)]

/-! ## Claims -/

/-- C1. No-duplication across poll cycles: transactions at or below the
current watermark are invisible to a cycle (they can be removed from the
batch without changing the result), so an event emitted in one cycle is
never emitted again once the watermark has advanced past its transaction's
version. Concretely: if cycle 1 sees versions [10,11] and cycle 2 sees
[10,11,12] (server order newest-first), cycle 2 emits only version 12's
events. -/
theorem c1_no_duplication :
    (∀ (filt : FilterCriteria) (w : Nat) (txns : List TransactionRecord),
        pollCycle filt (some w) txns
          = pollCycle filt (some w) (txns.filter fun t => decide (w < t.version))) ∧
    (∀ (filt : FilterCriteria) (ev10 ev11 ev12 : List EventRecord),
        (pollCycle filt none [⟨11, some ev11⟩, ⟨10, some ev10⟩]).1 = some 11 ∧
        pollCycle filt (some 11)
            [⟨12, some ev12⟩, ⟨11, some ev11⟩, ⟨10, some ev10⟩]
          = (some 12, txnEmits filt ⟨12, some ev12⟩)) := by
  constructor
  · intro filt w txns
    rw [pollCycle, pollCycle, ← List.filter_reverse]
    exact cycleAux_filter filt w txns.reverse w (Nat.le_refl w)
  · intro filt ev10 ev11 ev12
    constructor
    · simp [pollCycle, cycleAux, skipTxn]
    · simp [pollCycle, cycleAux, skipTxn]

/-- C2. Ordering of emission: for a batch in server (newest-first,
strictly descending) order, the cycle's lines are the per-transaction
emissions of the not-skipped transactions in ascending version order, and
within one transaction in event-list order. -/
theorem c2_ordering (filt : FilterCriteria) (wm : Option Nat)
    (txns : List TransactionRecord)
    (hdesc : txns.Pairwise (fun a b => b.version < a.version)) :
    (pollCycle filt wm txns).2
      = ((txns.reverse.filter fun t => !skipTxn wm t.version).map (txnEmits filt)).flatten := by
  rw [pollCycle]
  exact cycleAux_snd_of_ascending filt txns.reverse wm (List.pairwise_reverse.mpr hdesc)

/-- C2 witness: the server-order batch [v=12, v=11, v=10] satisfies the
newest-first hypothesis, and the cycle starting from an unset watermark
emits versions 10, 11, 12 in that order. -/
theorem c2_ordering_witness :
    ([(⟨12, some []⟩ : TransactionRecord), ⟨11, some []⟩, ⟨10, some []⟩].Pairwise
        (fun a b => b.version < a.version)) ∧
    (pollCycle filt0 none [⟨12, some []⟩, ⟨11, some []⟩, ⟨10, some []⟩]).2
      = ((([(⟨12, some []⟩ : TransactionRecord), ⟨11, some []⟩, ⟨10, some []⟩].reverse.filter
            fun t => !skipTxn none t.version).map (txnEmits filt0)).flatten) :=
  ⟨by decide, c2_ordering filt0 none _ (by decide)⟩

/-- C3. Watermark invariant: the run starts with an unset watermark, the
watermark is monotonically non-decreasing over any run, a transaction
whose version is numerically at or below the watermark is skipped
entirely, and after a successful cycle the watermark is the `wmStep`-fold
(maximum) of the previous watermark and every version in the batch, i.e.
the highest version observed so far. -/
theorem c3_watermark_invariant :
    (∀ (filt : FilterCriteria) (fs : List FetchResult),
        pollEvents filt fs = pollRun filt none fs) ∧
    (∀ (filt : FilterCriteria) (wm : Option Nat) (fs : List FetchResult),
        wmLe wm (pollRun filt wm fs).1) ∧
    (∀ (filt : FilterCriteria) (w : Nat) (t : TransactionRecord)
        (ts : List TransactionRecord),
        t.version ≤ w → cycleAux filt (some w) (t :: ts) = cycleAux filt (some w) ts) ∧
    (∀ (filt : FilterCriteria) (wm : Option Nat) (txns : List TransactionRecord),
        (pollCycle filt wm txns).1 = txns.foldl wmStep wm) := by
  refine ⟨fun _ _ => rfl, fun filt wm fs => wmLe_pollRun filt fs wm, ?_, ?_⟩
  · intro filt w t ts h
    simp only [cycleAux, skipTxn_some_true h, if_true]
  · intro filt wm txns
    rw [pollCycle, cycleAux_fst, foldl_wmStep_reverse]

/-- C3 witness: a transaction at version 3 is skipped entirely under
watermark 5. -/
theorem c3_watermark_witness :
    ((3 : Nat) ≤ 5) ∧
    cycleAux filt0 (some 5) [⟨3, some []⟩] = cycleAux filt0 (some 5) [] :=
  ⟨by decide, c3_watermark_invariant.2.2.1 filt0 5 ⟨3, some []⟩ [] (by decide)⟩

/-- C6. Fetch-failure atomicity: a failed fetch leaves the watermark
unchanged, logs the recoverable warning `Polling error: <msg>`, and the
run continues with the remaining cycles — a fetch failure is never
fatal. -/
theorem c6_fetch_failure_atomicity (filt : FilterCriteria) (wm : Option Nat)
    (m : String) (fs : List FetchResult) :
    (pollStep filt wm (FetchResult.err m)).1 = wm ∧
    pollRun filt wm (FetchResult.err m :: fs)
      = ((pollRun filt wm fs).1,
         OutLine.warn ("Polling error: " ++ m) :: (pollRun filt wm fs).2) := by
  exact ⟨rfl, by simp [pollRun, pollStep]⟩

/-- C7. `parseEventType` correctness: a string splitting on `::` into at
least three segments parses to exactly its first three segments (extras
ignored); fewer than three segments (including the empty string) parse to
`none`. -/
theorem c7_parseEventType_correct :
    (∀ (s a m n : String) (rest : List String),
        splitCols s = a :: m :: n :: rest → parseEventType s = some ⟨a, m, n⟩) ∧
    (∀ s : String, (splitCols s).length < 3 → parseEventType s = none) ∧
    parseEventType "" = none := by
  refine ⟨?_, ?_, rfl⟩
  · intro s a m n rest h
    simp [parseEventType, h, List.getD]
  · intro s h
    simp [parseEventType, h]

/-- C7 witness: a four-segment type string parses to its first three
segments, and a two-segment string parses to `none`. -/
theorem c7_parseEventType_witness :
    splitCols "0xabc::oil_supply_chain::DrillingStartedEvent::extra"
      = ["0xabc", "oil_supply_chain", "DrillingStartedEvent", "extra"] ∧
    parseEventType "0xabc::oil_supply_chain::DrillingStartedEvent::extra"
      = some ⟨"0xabc", "oil_supply_chain", "DrillingStartedEvent"⟩ ∧
    (splitCols "onlytwo::parts").length < 3 ∧
    parseEventType "onlytwo::parts" = none :=
  ⟨rfl, c7_parseEventType_correct.1 _ _ _ _ _ rfl, by decide,
   c7_parseEventType_correct.2.1 _ (by decide)⟩

/-- C4 counterexample: the `try/catch` wraps the whole cycle (`track.js`
lines 54-77), so an error raised while formatting/emitting a single event
aborts the rest of the cycle, contradicting per-event isolation. Here the
formatter throws on the (surviving) event of the version-1 transaction;
the surviving event of the version-2 transaction is then NOT emitted in
that cycle (`lines = []`), and the version-1 watermark update is lost. -/
theorem c4_counterexample :
    survives filt0 eC4b = true ∧
    (pollCycleE fErr filt0 none [tC4b, tC4a]).lines = [] ∧
    (pollCycleE fErr filt0 none [tC4b, tC4a]).err = some "boom" ∧
    (pollCycleE fErr filt0 none [tC4b, tC4a]).wm = none := by
  refine ⟨rfl, rfl, rfl, rfl⟩

/-- C4 (amended). Per-CYCLE error isolation: an error raised while
formatting/emitting a single event is caught by the cycle-level handler —
the remainder of that cycle (the failing transaction's later events, its
watermark update, and all later transactions) is abandoned, keeping the
lines and watermark updates made before the failure; the caught error is
logged as a `Polling error` warning and the run continues with the next
cycle, never terminating the process. -/
theorem c4_cycle_level_error_isolation (f : EventRecord → Except String String)
    (filt : FilterCriteria) (wm : Option Nat) (t : TransactionRecord)
    (ts : List TransactionRecord) (m₁ : String) (txns : List TransactionRecord)
    (m₂ : String) (fs : List FetchResult)
    (hskip : skipTxn wm t.version = false)
    (herr : (emitEventsE f filt (t.events.getD [])).2 = some m₁)
    (hcyc : (pollCycleE f filt wm txns).err = some m₂) :
    cycleAuxE f filt wm (t :: ts)
      = ⟨wm, (emitEventsE f filt (t.events.getD [])).1, some m₁⟩ ∧
    pollRunE f filt wm (FetchResult.ok txns :: fs)
      = ((pollRunE f filt (pollCycleE f filt wm txns).wm fs).1,
         (pollCycleE f filt wm txns).lines.map OutLine.emit ++
           OutLine.warn ("Polling error: " ++ m₂) ::
             (pollRunE f filt (pollCycleE f filt wm txns).wm fs).2) := by
  constructor
  · simp only [cycleAuxE, hskip, Bool.false_eq_true, if_false, herr]
  · simp [pollRunE, pollStepE, hcyc, List.append_assoc]

/-- C4 witness: the amended behavior at the concrete failing input of the
counterexample. -/
theorem c4_cycle_level_error_isolation_witness :
    skipTxn none tC4a.version = false ∧
    (emitEventsE fErr filt0 (tC4a.events.getD [])).2 = some "boom" ∧
    (pollCycleE fErr filt0 none [tC4b, tC4a]).err = some "boom" ∧
    (cycleAuxE fErr filt0 none [tC4a]
        = ⟨none, (emitEventsE fErr filt0 (tC4a.events.getD [])).1, some "boom"⟩ ∧
      pollRunE fErr filt0 none [FetchResult.ok [tC4b, tC4a]]
        = ((pollRunE fErr filt0 (pollCycleE fErr filt0 none [tC4b, tC4a]).wm []).1,
           (pollCycleE fErr filt0 none [tC4b, tC4a]).lines.map OutLine.emit ++
             OutLine.warn ("Polling error: " ++ "boom") ::
               (pollRunE fErr filt0 (pollCycleE fErr filt0 none [tC4b, tC4a]).wm []).2)) :=
  ⟨rfl, rfl, rfl,
   c4_cycle_level_error_isolation fErr filt0 none tC4a [] "boom" [tC4b, tC4a] "boom" []
     rfl rfl rfl⟩

/-- C5. Filtering: an event whose parsed module differs from a set module
filter, or whose `data.batch_id` differs from a set batch filter, never
survives the guards and so is never emitted, wherever it sits in the
event list. -/
theorem c5_filtering (filt : FilterCriteria) (e : EventRecord)
    (pre post : List EventRecord)
    (h : (∃ m, filt.moduleFilter = some m ∧
            ∃ p, parseEventType (e.type.getD "") = some p ∧ p.module ≠ m) ∨
         (∃ b, filt.batchId = some b ∧ (e.data.getD []).lookup "batch_id" ≠ some b)) :
    survives filt e = false ∧
    emitLines filt (pre ++ e :: post) = emitLines filt pre ++ emitLines filt post := by
  have hs : survives filt e = false := by
    rcases h with ⟨m, hm, p, hp, hne⟩ | ⟨b, hb, hne⟩
    · simp [survives, hp, hm, hne]
    · cases hparse : parseEventType (e.type.getD "") with
      | none => simp [survives, hparse]
      | some p => simp [survives, hparse, hb, hne]
  refine ⟨hs, ?_⟩
  simp [emitLines, List.filterMap_append, List.filterMap_cons, hs]

/-- C5 witness: under module filter `oil_supply_chain` and batch filter
`BATCH-1`, an event of module `other_module` (which also carries
`batch_id = BATCH-2`) is not emitted. -/
theorem c5_filtering_witness :
    survives filtOil eOtherModule = false ∧
    emitLines filtOil ([] ++ eOtherModule :: [])
      = emitLines filtOil [] ++ emitLines filtOil [] :=
  c5_filtering filtOil eOtherModule [] []
    (Or.inl ⟨"oil_supply_chain", rfl,
      ⟨"0xabc", "other_module", "SomeEvent"⟩, rfl, by decide⟩)

/-- C8. Unknown-network fallback: `setNetwork` on an unregistered name
fails with the `Unknown network` error listing the valid names and (being
a thrown error) leaves the client state unchanged; `trackCommand` catches
the failure, emits the fallback warning, and proceeds (result `.ok`, no
exit) against the constructor-default `testnet`. -/
theorem c8_unknown_network_fallback (n a : String)
    (h : initRPC.networks.lookup n = none) :
    setNetwork initRPC n
      = .error ("Unknown network: " ++ n ++ ". Available: testnet, devnet, mainnet") ∧
    trackStart initRPC (some a) (some n)
      = .ok (initRPC,
          [OutLine.warn ("Unknown network '" ++ n ++ "', defaulting to testnet.")]) ∧
    initRPC.currentNetwork = "testnet" := by
  have hset : setNetwork initRPC n
      = .error ("Unknown network: " ++ n ++ ". Available: testnet, devnet, mainnet") := by
    simp only [setNetwork, h]
    have hj : String.intercalate ", " (List.map Prod.fst initRPC.networks)
        = "testnet, devnet, mainnet" := rfl
    rw [hj]
    simp [String.append_assoc]
  refine ⟨hset, ?_, rfl⟩
  simp only [trackStart, Option.getD_some, hset]

/-- C8 witness: the unregistered name `porto`. -/
theorem c8_unknown_network_witness :
    initRPC.networks.lookup "porto" = none ∧
    (setNetwork initRPC "porto"
        = .error ("Unknown network: " ++ "porto" ++ ". Available: testnet, devnet, mainnet") ∧
      trackStart initRPC (some "0xabc") (some "porto")
        = .ok (initRPC,
            [OutLine.warn ("Unknown network '" ++ "porto" ++ "', defaulting to testnet.")]) ∧
      initRPC.currentNetwork = "testnet") :=
  ⟨by decide, c8_unknown_network_fallback "porto" "0xabc" (by decide)⟩

/-- C9. Fallback rendering: an event of a parsed but unrecognized kind is
rendered (totally, no exception possible) as the prefixed generic
key:value dump of its data; and a known kind with an absent data field
renders the `undefined` placeholder instead of failing, shown here for
`DrillingCompletedEvent` without `location`. -/
theorem c9_fallback_rendering :
    (∀ (evt : EventRecord) (p : ParsedType),
        parseEventType (evt.type.getD "") = some p →
        p.name ≠ "DrillingStartedEvent" → p.name ≠ "DrillingCompletedEvent" →
        p.name ≠ "TransportationEvent" → p.name ≠ "RefiningEvent" →
        p.name ≠ "DeliveryEvent" →
        formatEvent evt = "[" ++ p.name ++ "] " ++ jsonStringifyData (evt.data.getD [])) ∧
    (∀ (evt : EventRecord) (p : ParsedType),
        parseEventType (evt.type.getD "") = some p →
        p.name = "DrillingCompletedEvent" →
        (evt.data.getD []).lookup "location" = none →
        formatEvent evt
          = "[DrillingCompletedEvent] batch " ++ fld (evt.data.getD []) "batch_id" ++
            " — drilling completed at undefined") := by
  constructor
  · intro evt p hp h1 h2 h3 h4 h5
    simp [formatEvent, hp, h1, h2, h3, h4, h5, String.append_assoc]
  · intro evt p hp hn hloc
    simp [formatEvent, hp, hn, fld, hloc, String.append_assoc]

/-- C9 witness: the unknown kind `WeirdEvent` renders as a data dump; a
`DrillingCompletedEvent` without a `location` field renders `undefined`. -/
theorem c9_fallback_witness :
    formatEvent eWeird
      = "[" ++ "WeirdEvent" ++ "] " ++ jsonStringifyData (eWeird.data.getD []) ∧
    formatEvent eNoLoc
      = "[DrillingCompletedEvent] batch " ++ fld (eNoLoc.data.getD []) "batch_id" ++
        " — drilling completed at undefined" :=
  ⟨c9_fallback_rendering.1 eWeird ⟨"0xabc", "m", "WeirdEvent"⟩ rfl
      (by decide) (by decide) (by decide) (by decide) (by decide),
   c9_fallback_rendering.2 eNoLoc ⟨"0xabc", "m", "DrillingCompletedEvent"⟩ rfl rfl rfl⟩

/-- C10 (implicit). Oldest-first input silently drops older transactions:
if a successful poll returns an oldest-first batch (every version below
the last element's), the unconditional reversal processes the highest
version first, the watermark jumps to it, and every other transaction is
skipped — and, the watermark staying at or above that version, any
dropped transaction is also invisible to every later cycle. -/
theorem c10_oldest_first_drops (filt : FilterCriteria)
    (ts : List TransactionRecord) (t s : TransactionRecord) (w : Nat)
    (us vs : List TransactionRecord)
    (hlt : ∀ x ∈ ts, x.version < t.version) (hw : t.version ≤ w) (hs : s ∈ ts) :
    pollCycle filt none (ts ++ [t]) = (some t.version, txnEmits filt t) ∧
    pollCycle filt (some w) (us ++ s :: vs) = pollCycle filt (some w) (us ++ vs) := by
  constructor
  · have hrev : (ts ++ [t]).reverse = t :: ts.reverse := by simp
    rw [pollCycle, hrev]
    have hall : cycleAux filt (some t.version) ts.reverse = (some t.version, []) :=
      cycleAux_all_le filt ts.reverse t.version
        (fun x hx => Nat.le_of_lt (hlt x (List.mem_reverse.mp hx)))
    simp only [cycleAux, skipTxn_none, Bool.false_eq_true, if_false, hall,
      List.append_nil]
  · have h1 : (us ++ s :: vs).reverse = vs.reverse ++ s :: us.reverse := by simp
    have h2 : (us ++ vs).reverse = vs.reverse ++ us.reverse := by simp
    rw [pollCycle, pollCycle, h1, h2]
    exact cycleAux_erase filt s vs.reverse us.reverse w
      (Nat.le_trans (Nat.le_of_lt (hlt s hs)) hw)

/-- C10 witness: the oldest-first batch [10, 11, 12] from an unset
watermark emits only version 12, and version 10 stays invisible to a
later cycle under watermark 12. -/
theorem c10_oldest_first_witness :
    (∀ x ∈ [t10f, t11f], x.version < t12f.version) ∧
    t12f.version ≤ 12 ∧
    t10f ∈ [t10f, t11f] ∧
    (pollCycle filt0 none ([t10f, t11f] ++ [t12f]) = (some t12f.version, txnEmits filt0 t12f) ∧
      pollCycle filt0 (some 12) ([] ++ t10f :: [t12f])
        = pollCycle filt0 (some 12) ([] ++ [t12f])) :=
  ⟨by decide, by decide, by decide,
   c10_oldest_first_drops filt0 [t10f, t11f] t12f t10f 12 [] [t12f]
     (by decide) (by decide) (by decide)⟩

end MoveForge
